import Mathlib

/-!
Shallow embedding of `src/edl2denlive.py`: an EDL (edit decision list) to
Kdenlive/MLT project converter.  Python floats are modelled as rationals,
Python dicts (insertion-ordered) as association lists, and the printed
warning of the `except ValueError` handler as an explicit warning count.
String primitives are implemented structurally over `List Char` so that
every definition evaluates inside the kernel.
-/

attribute [local semireducible] Rat.add Rat.sub Rat.mul Rat.inv

/-- ASCII whitespace recognised by Python's `str.strip` / `str.split`. -/
def isPySpace (c : Char) : Bool :=
  c = ' ' || c = '\t' || c = '\n' || c = '\r' || c = '\x0b' || c = '\x0c'

/-- Python `str.strip()`: drop leading and trailing whitespace. -/
def pyStrip (s : String) : String :=
  String.mk (((s.data.dropWhile isPySpace).reverse.dropWhile isPySpace).reverse)

/-- Split a character list at every character satisfying `p`, keeping empty
groups (the semantics of Python `str.split(sep)` for a one-character `sep`
when `p` tests equality with that character). -/
def splitPred (p : Char → Bool) : List Char → List (List Char)
  | [] => [[]]
  | x :: xs =>
    if p x then [] :: splitPred p xs
    else
      match splitPred p xs with
      | g :: gs => (x :: g) :: gs
      | [] => [[x]]

/-- Concatenate groups, re-inserting the separator between them
(Python `sep.join`). -/
def joinSep (sep : List Char) : List (List Char) → List Char
  | [] => []
  | [g] => g
  | g :: gs => g ++ sep ++ joinSep sep gs

/-- Python `line.rsplit(',', 2)`: split on commas from the right, at most
twice, so everything before the last two commas stays one piece. -/
def rsplit2 (s : String) : List String :=
  let parts := splitPred (fun c => c = ',') s.data
  if parts.length ≤ 3 then parts.map String.mk
  else
    String.mk (joinSep [','] (parts.take (parts.length - 2))) ::
      (parts.drop (parts.length - 2)).map String.mk

/-- Python `line.split()`: split on whitespace runs, discarding empty tokens. -/
def pySplitWS (s : String) : List String :=
  ((splitPred isPySpace s.data).filter (fun t => !t.isEmpty)).map String.mk

/-- Python `" ".join(tokens)`. -/
def joinSpace (l : List String) : String :=
  String.mk (joinSep [' '] (l.map String.data))

/-- Python `line.startswith('#')`. -/
def startsWithHash (s : String) : Bool :=
  match s.data with
  | '#' :: _ => true
  | _ => false

/-- Value of a list of decimal digit characters. -/
def digitsToNat (ds : List Char) : Nat :=
  ds.foldl (fun n c => 10 * n + (c.toNat - 48)) 0

/-- Python `float(s)` modelled over rationals: optional sign, decimal mantissa
with optional fractional part, optional exponent.  Returns `none` where
`float` raises `ValueError` (infinities and NaN are outside the rational
model and also map to `none`). -/
def pyFloat (s : String) : Option ℚ :=
  let cs0 := (pyStrip s).data
  let sgn : ℚ := match cs0 with
    | '-' :: _ => -1
    | _ => 1
  let cs := match cs0 with
    | '+' :: rest => rest
    | '-' :: rest => rest
    | rest => rest
  let intPart := cs.takeWhile Char.isDigit
  let cs1 := cs.dropWhile Char.isDigit
  let fracPart := match cs1 with
    | '.' :: rest => rest.takeWhile Char.isDigit
    | _ => []
  let cs2 := match cs1 with
    | '.' :: rest => rest.dropWhile Char.isDigit
    | _ => cs1
  if intPart.isEmpty && fracPart.isEmpty then none
  else
    let mant : ℚ := (digitsToNat intPart : ℚ) + (digitsToNat fracPart : ℚ) / ((10 : ℚ) ^ fracPart.length)
    match cs2 with
    | [] => some (sgn * mant)
    | e :: rest =>
      if e = 'e' || e = 'E' then
        let esgn : ℤ := match rest with
          | '-' :: _ => -1
          | _ => 1
        let rest1 := match rest with
          | '+' :: r => r
          | '-' :: r => r
          | r => r
        let eds := rest1.takeWhile Char.isDigit
        let rest2 := rest1.dropWhile Char.isDigit
        if eds.isEmpty || !rest2.isEmpty then none
        else some (sgn * mant * (10 : ℚ) ^ (esgn * (digitsToNat eds : ℤ)))
      else none

/-- One parsed EDL cut: source path, start offset and duration in seconds. -/
structure CutRecord where
  path : String
  start : ℚ
  length : ℚ
deriving DecidableEq, Repr

/-- `parse_edl_line` from `src/edl2denlive.py`.  The first component is the
returned record (`none` both for skip and for invalid lines); the second
counts warnings printed by the `except ValueError` handler. -/
def parse_edl_line (ln : String) : Option CutRecord × Nat :=
  let t := pyStrip ln
  if t.data.isEmpty || startsWithHash t then (none, 0)
  else
    match rsplit2 t with
    | [p0, p1, p2] =>
      match pyFloat p1, pyFloat p2 with
      | some s, some l => (some { path := pyStrip p0, start := s, length := l }, 0)
      | _, _ => (none, 1)
    | _ =>
      let toks := pySplitWS t
      if toks.length < 3 then (none, 0)
      else
        match pyFloat (toks[toks.length - 2]?.getD ""), pyFloat (toks[toks.length - 1]?.getD "") with
        | some s, some l =>
            (some { path := joinSpace (toks.take (toks.length - 2)), start := s, length := l }, 0)
        | _, _ => (none, 1)

/-- Round a rational to the nearest integer, ties to even (the rounding of
IEEE formatting used by Python's fixed-point `format`). -/
def roundHalfEven (q : ℚ) : ℤ :=
  let f : ℤ := q.floor
  let r : ℚ := q - (f : ℚ)
  if r < 1/2 then f
  else if 1/2 < r then f + 1
  else if f % 2 = 0 then f else f + 1

/-- Zero-pad a natural number below 1000 to three digits. -/
def pad3 (k : Nat) : String :=
  if k < 10 then "00" ++ toString k
  else if k < 100 then "0" ++ toString k
  else toString k

/-- Python `f"{x:.3f}"`: fixed-point rendering with exactly three decimals. -/
def fmt3 (q : ℚ) : String :=
  let n : ℤ := roundHalfEven (q * 1000)
  let sgn := if n < 0 then "-" else ""
  let m : Nat := n.natAbs
  sgn ++ toString (m / 1000) ++ "." ++ pad3 (m % 1000)

/-- The `unique_paths` dict of `create_kdenlive_project` as an association
list in insertion order, together with the `producer_counter` threading:
a path not yet present is appended with id `producer<counter>`. -/
def regAux : List CutRecord → List (String × String) → Nat → List (String × String)
  | [], acc, _ => acc
  | c :: cs, acc, n =>
    if acc.any (fun pr => pr.1 == c.path) then regAux cs acc n
    else regAux cs (acc ++ [(c.path, "producer" ++ toString n)]) (n + 1)

/-- The completed `unique_paths` registry for a cut sequence. -/
def buildRegistry (cuts : List CutRecord) : List (String × String) :=
  regAux cuts [] 0

/-- Python `unique_paths[cut['path']]` (the path is always present when the
builder reads it; the default is never used). -/
def lookupId (reg : List (String × String)) (p : String) : String :=
  (reg.lookup p).getD ""

/-- A `<producer>` element: id attribute and `resource` property. -/
structure Producer where
  id : String
  resource : String
deriving DecidableEq, Repr

/-- An `<entry>` element of the playlist. -/
structure PlaylistEntry where
  producer : String
  inAttr : String
  outAttr : String
deriving DecidableEq, Repr

/-- The MLT document assembled by `create_kdenlive_project`. -/
structure Project where
  version : String
  title : String
  rootProducer : String
  producers : List Producer
  playlistId : String
  entries : List PlaylistEntry
  tractorId : String
  trackProducer : String
deriving DecidableEq, Repr

/-- The producer element emitted for one registry pair (step 3 of
`create_kdenlive_project`): id attribute and `resource` property text. -/
def mkProducer (pr : String × String) : Producer :=
  { id := pr.2, resource := pr.1 }

/-- The playlist entry emitted for one cut (step 4 of
`create_kdenlive_project`): producer reference and `in`/`out` attributes
formatted to three decimals from `start` and `start + length`. -/
def mkEntry (reg : List (String × String)) (c : CutRecord) : PlaylistEntry :=
  { producer := lookupId reg c.path
    inAttr := fmt3 c.start
    outAttr := fmt3 (c.start + c.length) }

/-- Steps 1 and 3-5 of `create_kdenlive_project`: registry construction,
producer elements in dict insertion order, playlist entries in cut order
with `in`/`out` formatted to three decimals, and the tractor/track wrap. -/
def buildProject (cuts : List CutRecord) : Project :=
  let reg := buildRegistry cuts
  { version := "7.0"
    title := "EDL Import"
    rootProducer := "maintractor"
    producers := reg.map mkProducer
    playlistId := "playlist0"
    entries := cuts.map (mkEntry reg)
    tractorId := "maintractor"
    trackProducer := "playlist0" }

/-- Serialization of one producer element (pretty-printed form). -/
def serializeProducer (p : Producer) : String :=
  "  <producer id=\"" ++ p.id ++ "\">\n" ++
  "    <property name=\"resource\">" ++ p.resource ++ "</property>\n" ++
  "  </producer>\n"

/-- Serialization of one playlist entry element. -/
def serializeEntry (e : PlaylistEntry) : String :=
  "    <entry producer=\"" ++ e.producer ++ "\" in=\"" ++ e.inAttr ++
  "\" out=\"" ++ e.outAttr ++ "\"/>\n"

/-- Serialization of the whole document, mirroring the element order of the
Python builder (producers, playlist, tractor under the `mlt` root). -/
def serializeProject (doc : Project) : String :=
  "<?xml version=\"1.0\" ?>\n" ++
  "<mlt version=\"" ++ doc.version ++ "\" title=\"" ++ doc.title ++
    "\" producer=\"" ++ doc.rootProducer ++ "\">\n" ++
  String.join (doc.producers.map serializeProducer) ++
  "  <playlist id=\"" ++ doc.playlistId ++ "\">\n" ++
  String.join (doc.entries.map serializeEntry) ++
  "  </playlist>\n" ++
  "  <tractor id=\"" ++ doc.tractorId ++ "\">\n" ++
  "    <track producer=\"" ++ doc.trackProducer ++ "\"/>\n" ++
  "  </tractor>\n" ++
  "</mlt>\n"

/-- Outcome of one run of `create_kdenlive_project`: the two early-return
error paths, or the serialized document handed to the output file. -/
inductive RunResult where
  | errNoFile : RunResult
  | errNoCuts : RunResult
  | written : String → RunResult
deriving DecidableEq

/-- `create_kdenlive_project` from `src/edl2denlive.py`.  The input file is
`none` when opening raises `FileNotFoundError`, otherwise the list of its
lines.  Filtering keeps exactly the lines for which the parser returns a
record, in order. -/
def create_kdenlive_project (edlFile : Option (List String)) : RunResult :=
  match edlFile with
  | none => RunResult.errNoFile
  | some ls =>
    let cuts := ls.filterMap (fun l => (parse_edl_line l).1)
    if cuts.isEmpty then RunResult.errNoCuts
    else RunResult.written (serializeProject (buildProject cuts))

/-- First occurrence of each distinct element, in order of first appearance
(the specification's description of identifier assignment). -/
def faAux : List String → List String → List String
  | [], acc => acc
  | p :: ps, acc => if acc.any (fun q => q == p) then faAux ps acc else faAux ps (acc ++ [p])

/-- Distinct paths of a sequence in order of first appearance. -/
def firstAppearances (l : List String) : List String :=
  faAux l []

/-! ## Lemmas about the line parser -/

/-- Primary format: exactly three comma groups with numeric last two fields
produce a record from the trimmed first group and the two numbers. -/
lemma parsePrimarySome (ln p0 p1 p2 : String) (s l : ℚ)
    (hne : (pyStrip ln).data.isEmpty = false)
    (hnc : startsWithHash (pyStrip ln) = false)
    (hparts : rsplit2 (pyStrip ln) = [p0, p1, p2])
    (hs : pyFloat p1 = some s)
    (hl : pyFloat p2 = some l) :
    parse_edl_line ln = (some { path := pyStrip p0, start := s, length := l }, 0) := by
  unfold parse_edl_line
  simp [hne, hnc, hparts, hs, hl]

/-- Primary format with a non-numeric field: no record, one warning. -/
lemma parsePrimaryBad (ln p0 p1 p2 : String)
    (hne : (pyStrip ln).data.isEmpty = false)
    (hnc : startsWithHash (pyStrip ln) = false)
    (hparts : rsplit2 (pyStrip ln) = [p0, p1, p2])
    (hbad : pyFloat p1 = none ∨ pyFloat p2 = none) :
    parse_edl_line ln = (none, 1) := by
  unfold parse_edl_line
  rcases hbad with h | h
  · simp only [hne, hnc, hparts, h, Bool.false_or, Bool.or_self, if_false]
    cases pyFloat p2 <;> simp
  · simp only [hne, hnc, hparts, h, Bool.false_or, Bool.or_self, if_false]
    cases pyFloat p1 <;> simp

/-- Fallback with fewer than three whitespace tokens: no record, no warning. -/
lemma parseFallbackShort (ln : String)
    (hne : (pyStrip ln).data.isEmpty = false)
    (hnc : startsWithHash (pyStrip ln) = false)
    (hsplit : (rsplit2 (pyStrip ln)).length ≠ 3)
    (htoks : (pySplitWS (pyStrip ln)).length < 3) :
    parse_edl_line ln = (none, 0) := by
  unfold parse_edl_line
  rcases hr : rsplit2 (pyStrip ln) with _ | ⟨q0, _ | ⟨q1, _ | ⟨q2, rest⟩⟩⟩ <;>
    rw [hr] at hsplit <;> simp_all

/-- Fallback with at least three whitespace tokens and numeric last two:
record with the space-rejoined leading tokens as path. -/
lemma parseFallbackSome (ln : String) (s l : ℚ)
    (hne : (pyStrip ln).data.isEmpty = false)
    (hnc : startsWithHash (pyStrip ln) = false)
    (hsplit : (rsplit2 (pyStrip ln)).length ≠ 3)
    (htoks : 3 ≤ (pySplitWS (pyStrip ln)).length)
    (hs : pyFloat ((pySplitWS (pyStrip ln))[(pySplitWS (pyStrip ln)).length - 2]?.getD "") = some s)
    (hl : pyFloat ((pySplitWS (pyStrip ln))[(pySplitWS (pyStrip ln)).length - 1]?.getD "") = some l) :
    parse_edl_line ln =
      (some { path := joinSpace ((pySplitWS (pyStrip ln)).take ((pySplitWS (pyStrip ln)).length - 2)),
              start := s, length := l }, 0) := by
  unfold parse_edl_line
  rcases hr : rsplit2 (pyStrip ln) with _ | ⟨q0, _ | ⟨q1, _ | ⟨q2, rest⟩⟩⟩ <;>
    rw [hr] at hsplit <;> simp_all [Nat.not_lt_of_le htoks]

/-! ## Lemmas about identifier assignment -/

/-- Membership in `faAux`: exactly the accumulator plus the scanned list. -/
lemma faAux_mem (ps : List String) : ∀ (acc : List String) (x : String),
    x ∈ faAux ps acc ↔ x ∈ acc ∨ x ∈ ps := by
  induction ps with
  | nil => intro acc x; simp [faAux]
  | cons p ps ih =>
    intro acc x
    by_cases h : acc.any (fun q => q == p) = true
    · have hp : p ∈ acc := by
        rcases List.any_eq_true.mp h with ⟨q, hq, he⟩
        exact (beq_iff_eq.mp he) ▸ hq
      rw [faAux, if_pos h, ih]
      constructor
      · rintro (hx | hx)
        · exact Or.inl hx
        · exact Or.inr (List.mem_cons_of_mem _ hx)
      · rintro (hx | hx)
        · exact Or.inl hx
        · rcases List.mem_cons.mp hx with rfl | hx
          · exact Or.inl hp
          · exact Or.inr hx
    · rw [faAux, if_neg h, ih]
      simp only [List.mem_append, List.mem_cons, List.mem_singleton]
      tauto

/-- `faAux` preserves freedom from duplicates. -/
lemma faAux_nodup (ps : List String) : ∀ (acc : List String),
    acc.Nodup → (faAux ps acc).Nodup := by
  induction ps with
  | nil => intro acc h; exact h
  | cons p ps ih =>
    intro acc h
    by_cases hc : acc.any (fun q => q == p) = true
    · rw [faAux, if_pos hc]; exact ih acc h
    · rw [faAux, if_neg hc]
      apply ih
      have hp : p ∉ acc := by
        intro hmem
        exact hc (List.any_eq_true.mpr ⟨p, hmem, beq_self_eq_true p⟩)
      simpa [List.nodup_append] using ⟨h, hp⟩

/-- The keys of the registry are the first appearances of the paths. -/
lemma regAux_keys (cs : List CutRecord) : ∀ (acc : List (String × String)) (n : Nat),
    (regAux cs acc n).map Prod.fst = faAux (cs.map CutRecord.path) (acc.map Prod.fst) := by
  induction cs with
  | nil => intro acc n; rfl
  | cons c cs ih =>
    intro acc n
    have hc : (acc.map Prod.fst).any (fun q => q == c.path) = acc.any (fun pr => pr.1 == c.path) := by
      induction acc with
      | nil => rfl
      | cons a t iht => simp [iht]
    by_cases h : acc.any (fun pr => pr.1 == c.path) = true
    · rw [regAux, if_pos h, ih, List.map_cons, faAux, hc, if_pos h]
    · rw [regAux, if_neg h, ih, List.map_cons, faAux, hc, if_neg h, List.map_append]
      rfl

/-- The identifiers of the registry are `producer0`, `producer1`, … in order. -/
lemma regAux_ids (cs : List CutRecord) : ∀ (acc : List (String × String)) (n : Nat),
    n = acc.length →
    acc.map Prod.snd = (List.range acc.length).map (fun i => "producer" ++ toString i) →
    (regAux cs acc n).map Prod.snd =
      (List.range (regAux cs acc n).length).map (fun i => "producer" ++ toString i) := by
  induction cs with
  | nil =>
    intro acc n h1 h2
    simpa [regAux] using h2
  | cons c cs ih =>
    intro acc n h1 h2
    by_cases h : acc.any (fun pr => pr.1 == c.path) = true
    · rw [regAux, if_pos h]; exact ih acc n h1 h2
    · rw [regAux, if_neg h]
      apply ih
      · simp [h1]
      · subst h1
        simp [List.range_succ, h2]

/-- A key appearing among the keys of an association list has a value. -/
lemma lookup_some_of_mem_keys (reg : List (String × String)) (p : String)
    (h : p ∈ reg.map Prod.fst) : ∃ v, reg.lookup p = some v := by
  induction reg with
  | nil => exact absurd h (by simp)
  | cons a t ih =>
    obtain ⟨k, w⟩ := a
    rw [List.map_cons, List.mem_cons] at h
    by_cases hb : (p == k) = true
    · exact ⟨w, by simp [List.lookup_cons, hb]⟩
    · have hp : p ∈ t.map Prod.fst := by
        rcases h with rfl | hq
        · exact absurd (beq_self_eq_true p) hb
        · exact hq
      rcases ih hp with ⟨v, hv⟩
      exact ⟨v, by simp [List.lookup_cons, hb, hv]⟩

/-- A successful lookup returns a pair of the list. -/
lemma mem_of_lookup_some (reg : List (String × String)) (p v : String)
    (h : reg.lookup p = some v) : (p, v) ∈ reg := by
  induction reg with
  | nil => simp at h
  | cons a t ih =>
    obtain ⟨k, w⟩ := a
    by_cases hb : (p == k) = true
    · rw [List.lookup_cons, hb] at h
      have hp : p = k := beq_iff_eq.mp hb
      have hv : w = v := by injection h
      subst hp
      subst hv
      exact List.mem_cons_self _ _
    · have hb1 : (p == k) = false := by simpa using hb
      rw [List.lookup_cons, hb1] at h
      exact List.mem_cons_of_mem _ (ih h)

/-! ## Claim theorems: the line parser -/

/-- C3: every line whose right comma-split yields exactly three parts with
numeric last two fields parses to a cut record whose path is the first part
trimmed of surrounding whitespace (embedded commas in the path are preserved
because only the rightmost two comma groups are split off) and whose start
and length are those numeric values. -/
theorem c3_primary_comma_format (ln p0 p1 p2 : String) (s l : ℚ)
    (hne : (pyStrip ln).data.isEmpty = false)
    (hnc : startsWithHash (pyStrip ln) = false)
    (hparts : rsplit2 (pyStrip ln) = [p0, p1, p2])
    (hs : pyFloat p1 = some s)
    (hl : pyFloat p2 = some l) :
    parse_edl_line ln = (some { path := pyStrip p0, start := s, length := l }, 0) :=
  parsePrimarySome ln p0 p1 p2 s l hne hnc hparts hs hl

/-- Witness for C3 on the embedded-comma example of the specification. -/
theorem c3_primary_comma_format_witness :
    rsplit2 (pyStrip "/a, b/clip.mp4, 1.0, 2.5") = ["/a, b/clip.mp4", " 1.0", " 2.5"] ∧
    parse_edl_line "/a, b/clip.mp4, 1.0, 2.5" =
      (some { path := "/a, b/clip.mp4", start := 1, length := 5/2 }, 0) :=
  ⟨by decide,
   c3_primary_comma_format "/a, b/clip.mp4, 1.0, 2.5" "/a, b/clip.mp4" " 1.0" " 2.5" 1 (5/2)
     (by decide) (by decide) (by decide) (by decide) (by decide)⟩

/-- C4 counterexample: the line `abc` fails the comma split, tokenizes to a
single whitespace token, and the parser returns no record with ZERO warnings
printed, contradicting the claim that a warning is reported. -/
theorem c4_short_line_counterexample :
    (rsplit2 (pyStrip "abc")).length ≠ 3 ∧
    (pySplitWS (pyStrip "abc")).length < 3 ∧
    parse_edl_line "abc" = (none, 0) :=
  ⟨by decide, by decide, by decide⟩

/-- C4 amended: for every line that fails the comma split and whose
whitespace tokenization yields fewer than three tokens, the parser returns
no record and emits no warning (the line is dropped silently, exactly like
a blank or comment line). -/
theorem c4_short_line_silent (ln : String)
    (hne : (pyStrip ln).data.isEmpty = false)
    (hnc : startsWithHash (pyStrip ln) = false)
    (hsplit : (rsplit2 (pyStrip ln)).length ≠ 3)
    (htoks : (pySplitWS (pyStrip ln)).length < 3) :
    parse_edl_line ln = (none, 0) :=
  parseFallbackShort ln hne hnc hsplit htoks

/-- Witness for the amended C4. -/
theorem c4_short_line_silent_witness : parse_edl_line "xy zz" = (none, 0) :=
  c4_short_line_silent "xy zz" (by decide) (by decide) (by decide) (by decide)

/-- C5: a line that splits into exactly three comma parts whose last two
fields are not both numeric is invalid immediately: no record, exactly one
warning, and the whitespace fallback is never attempted (the result is the
primary branch's invalid outcome, not a fallback parse). -/
theorem c5_primary_nonnumeric_invalid (ln p0 p1 p2 : String)
    (hne : (pyStrip ln).data.isEmpty = false)
    (hnc : startsWithHash (pyStrip ln) = false)
    (hparts : rsplit2 (pyStrip ln) = [p0, p1, p2])
    (hbad : pyFloat p1 = none ∨ pyFloat p2 = none) :
    parse_edl_line ln = (none, 1) :=
  parsePrimaryBad ln p0 p1 p2 hne hnc hparts hbad

/-- Witness for C5: `a, b, c` has three comma parts and non-numeric fields;
note its whitespace tokenization has three tokens, so a fallback parse would
have been attempted (and also failed) had the precedence been different. -/
theorem c5_primary_nonnumeric_invalid_witness :
    rsplit2 (pyStrip "a, b, c") = ["a", " b", " c"] ∧
    pyFloat " b" = none ∧
    parse_edl_line "a, b, c" = (none, 1) :=
  ⟨by decide, by decide,
   c5_primary_nonnumeric_invalid "a, b, c" "a" " b" " c"
     (by decide) (by decide) (by decide) (Or.inl (by decide))⟩

/-- C6: a line that does not split into exactly three comma parts but whose
whitespace tokenization has at least three tokens with numeric last two
parses to a record whose path is the preceding tokens rejoined with single
spaces and whose start/length are the last two tokens' values. -/
theorem c6_fallback_whitespace_format (ln : String) (s l : ℚ)
    (hne : (pyStrip ln).data.isEmpty = false)
    (hnc : startsWithHash (pyStrip ln) = false)
    (hsplit : (rsplit2 (pyStrip ln)).length ≠ 3)
    (htoks : 3 ≤ (pySplitWS (pyStrip ln)).length)
    (hs : pyFloat ((pySplitWS (pyStrip ln))[(pySplitWS (pyStrip ln)).length - 2]?.getD "") = some s)
    (hl : pyFloat ((pySplitWS (pyStrip ln))[(pySplitWS (pyStrip ln)).length - 1]?.getD "") = some l) :
    parse_edl_line ln =
      (some { path := joinSpace ((pySplitWS (pyStrip ln)).take ((pySplitWS (pyStrip ln)).length - 2)),
              start := s, length := l }, 0) :=
  parseFallbackSome ln s l hne hnc hsplit htoks hs hl

/-- Witness for C6 on the specification's legacy-format example. -/
theorem c6_fallback_whitespace_format_witness :
    pySplitWS (pyStrip "my clip.mp4 1.0 2.5") = ["my", "clip.mp4", "1.0", "2.5"] ∧
    parse_edl_line "my clip.mp4 1.0 2.5" =
      (some { path := "my clip.mp4", start := 1, length := 5/2 }, 0) :=
  ⟨by decide,
   c6_fallback_whitespace_format "my clip.mp4 1.0 2.5" 1 (5/2)
     (by decide) (by decide) (by decide) (by decide) (by decide) (by decide)⟩

/-- C9 counterexample: the accepted line `/a.mp4, -1.0, 2.5` yields a record
whose start is `-1`, which is negative, contradicting the claim that every
accepted record has a non-negative start. -/
theorem c9_negative_start_counterexample :
    parse_edl_line "/a.mp4, -1.0, 2.5" =
      (some { path := "/a.mp4", start := -1, length := 5/2 }, 0) ∧
    ({ path := "/a.mp4", start := -1, length := 5/2 } : CutRecord).start < 0 :=
  ⟨by decide, by decide⟩

/-- C9 amended: the parser applies no sign check: a primary-format line whose
start field parses to a negative number is accepted, and the record's start
is exactly that negative value. -/
theorem c9_parser_accepts_negative_start (ln p0 p1 p2 : String) (s l : ℚ)
    (hne : (pyStrip ln).data.isEmpty = false)
    (hnc : startsWithHash (pyStrip ln) = false)
    (hparts : rsplit2 (pyStrip ln) = [p0, p1, p2])
    (hs : pyFloat p1 = some s)
    (hl : pyFloat p2 = some l)
    (hneg : s < 0) :
    ∃ r, (parse_edl_line ln).1 = some r ∧ r.start = s ∧ r.start < 0 := by
  have h := parsePrimarySome ln p0 p1 p2 s l hne hnc hparts hs hl
  exact ⟨{ path := pyStrip p0, start := s, length := l }, by rw [h], rfl, hneg⟩

/-- Witness for the amended C9. -/
theorem c9_parser_accepts_negative_start_witness :
    ∃ r, (parse_edl_line "/b.mp4, -0.5, 1.0").1 = some r ∧ r.start = -1/2 ∧ r.start < 0 :=
  c9_parser_accepts_negative_start "/b.mp4, -0.5, 1.0" "/b.mp4" " -0.5" " 1.0" (-1/2) 1
    (by decide) (by decide) (by decide) (by decide) (by decide) (by decide)

/-- C10: a line whose first comma part trims to the empty string but whose
last two fields are numeric yields a record with the empty path, and that
empty path is registered in the source registry with its own producer
identifier appearing among the produced descriptors. -/
theorem c10_empty_path_accepted (ln p0 p1 p2 : String) (s l : ℚ) (cuts : List CutRecord)
    (hne : (pyStrip ln).data.isEmpty = false)
    (hnc : startsWithHash (pyStrip ln) = false)
    (hparts : rsplit2 (pyStrip ln) = [p0, p1, p2])
    (hpath : pyStrip p0 = "")
    (hs : pyFloat p1 = some s)
    (hl : pyFloat p2 = some l)
    (hmem : ({ path := "", start := s, length := l } : CutRecord) ∈ cuts) :
    parse_edl_line ln = (some { path := "", start := s, length := l }, 0) ∧
    ∃ pid, (buildRegistry cuts).lookup "" = some pid ∧
      ({ id := pid, resource := "" } : Producer) ∈ (buildProject cuts).producers := by
  constructor
  · have h := parsePrimarySome ln p0 p1 p2 s l hne hnc hparts hs hl
    rw [hpath] at h
    exact h
  · have hkey : "" ∈ (buildRegistry cuts).map Prod.fst := by
      rw [buildRegistry, regAux_keys]
      refine (faAux_mem _ _ _).mpr (Or.inr ?_)
      exact List.mem_map_of_mem CutRecord.path hmem
    rcases lookup_some_of_mem_keys _ _ hkey with ⟨pid, hpid⟩
    refine ⟨pid, hpid, ?_⟩
    have hmem2 : ("", pid) ∈ buildRegistry cuts := mem_of_lookup_some _ _ _ hpid
    show ({ id := pid, resource := "" } : Producer) ∈ (buildRegistry cuts).map mkProducer
    exact List.mem_map_of_mem mkProducer hmem2

/-- Witness for C10 on the specification's example line. -/
theorem c10_empty_path_accepted_witness :
    parse_edl_line ", 1.0, 2.5" = (some { path := "", start := 1, length := 5/2 }, 0) ∧
    ∃ pid, (buildRegistry [{ path := "", start := 1, length := 5/2 }]).lookup "" = some pid ∧
      ({ id := pid, resource := "" } : Producer) ∈
        (buildProject [{ path := "", start := 1, length := 5/2 }]).producers :=
  c10_empty_path_accepted ", 1.0, 2.5" "" " 1.0" " 2.5" 1 (5/2)
    [{ path := "", start := 1, length := 5/2 }]
    (by decide) (by decide) (by decide) (by decide) (by decide) (by decide) (by decide)

/-! ## Claim theorems: the project builder -/

/-- C1: for any cut sequence the document has one producer per distinct path
in strictly increasing order of first appearance, with identifiers
`producer0`, `producer1`, … in that order, one playlist entry per cut in
original order, and every entry's producer reference is the identifier
assigned to its path, resolving to one of the emitted descriptors. -/
theorem c1_producers_playlist_invariant (cuts : List CutRecord) :
    (buildProject cuts).producers.map Producer.resource = firstAppearances (cuts.map CutRecord.path) ∧
    (firstAppearances (cuts.map CutRecord.path)).Nodup ∧
    (∀ p, p ∈ firstAppearances (cuts.map CutRecord.path) ↔ p ∈ cuts.map CutRecord.path) ∧
    (buildProject cuts).producers.map Producer.id =
      (List.range (buildProject cuts).producers.length).map (fun i => "producer" ++ toString i) ∧
    (buildProject cuts).entries.length = cuts.length ∧
    (∀ (i : Nat) (c : CutRecord), cuts[i]? = some c →
      ∃ e : PlaylistEntry, (buildProject cuts).entries[i]? = some e ∧
        e.producer = lookupId (buildRegistry cuts) c.path ∧
        ∃ pr : Producer, pr ∈ (buildProject cuts).producers ∧ pr.id = e.producer) := by
  refine ⟨?_, ?_, ?_, ?_, ?_, ?_⟩
  · show ((buildRegistry cuts).map mkProducer).map Producer.resource =
      firstAppearances (cuts.map CutRecord.path)
    rw [List.map_map]
    show (buildRegistry cuts).map Prod.fst = firstAppearances (cuts.map CutRecord.path)
    rw [buildRegistry, regAux_keys]
    rfl
  · exact faAux_nodup _ _ List.nodup_nil
  · intro p
    have h := faAux_mem (cuts.map CutRecord.path) [] p
    simpa using h
  · show ((buildRegistry cuts).map mkProducer).map Producer.id =
      (List.range (buildProject cuts).producers.length).map (fun i => "producer" ++ toString i)
    have hlen : (buildProject cuts).producers.length = (buildRegistry cuts).length := by
      show ((buildRegistry cuts).map mkProducer).length = _
      rw [List.length_map]
    rw [List.map_map, hlen]
    show (buildRegistry cuts).map Prod.snd =
      (List.range (buildRegistry cuts).length).map (fun i => "producer" ++ toString i)
    rw [buildRegistry]
    exact regAux_ids cuts [] 0 rfl rfl
  · show (cuts.map (mkEntry (buildRegistry cuts))).length = cuts.length
    rw [List.length_map]
  · intro i c hc
    refine ⟨mkEntry (buildRegistry cuts) c, ?_, rfl, ?_⟩
    · show (cuts.map (mkEntry (buildRegistry cuts)))[i]? = some (mkEntry (buildRegistry cuts) c)
      rw [List.getElem?_map, hc]
      rfl
    · have hpmem : c.path ∈ cuts.map CutRecord.path :=
        List.mem_map_of_mem CutRecord.path (List.getElem?_mem hc)
      have hkey : c.path ∈ (buildRegistry cuts).map Prod.fst := by
        rw [buildRegistry, regAux_keys]
        exact (faAux_mem _ _ _).mpr (Or.inr hpmem)
      rcases lookup_some_of_mem_keys _ _ hkey with ⟨v, hv⟩
      have hmm : (c.path, v) ∈ buildRegistry cuts := mem_of_lookup_some _ _ _ hv
      refine ⟨mkProducer (c.path, v), ?_, ?_⟩
      · show mkProducer (c.path, v) ∈ (buildRegistry cuts).map mkProducer
        exact List.mem_map_of_mem mkProducer hmm
      · show v = (mkEntry (buildRegistry cuts) c).producer
        show v = lookupId (buildRegistry cuts) c.path
        rw [lookupId, hv]
        rfl

/-- Witness for C1 on a three-cut, two-path sequence. -/
theorem c1_producers_playlist_invariant_witness :
    ∃ e, (buildProject [{ path := "a", start := 0, length := 1 },
                        { path := "b", start := 1, length := 1 },
                        { path := "a", start := 2, length := 1 }]).entries[2]? = some e ∧
      e.producer = lookupId (buildRegistry [{ path := "a", start := 0, length := 1 },
                        { path := "b", start := 1, length := 1 },
                        { path := "a", start := 2, length := 1 }]) "a" ∧
      ∃ pr, pr ∈ (buildProject [{ path := "a", start := 0, length := 1 },
                        { path := "b", start := 1, length := 1 },
                        { path := "a", start := 2, length := 1 }]).producers ∧ pr.id = e.producer :=
  (c1_producers_playlist_invariant [{ path := "a", start := 0, length := 1 },
                        { path := "b", start := 1, length := 1 },
                        { path := "a", start := 2, length := 1 }]).2.2.2.2.2
    2 { path := "a", start := 2, length := 1 } (by decide)

/-- C2: the playlist entry for each cut carries `in = start` and
`out = start + length`, both rendered by the fixed three-decimal formatter,
with the sum taken exactly (no rounding or clamping before formatting). -/
theorem c2_entry_in_out_formatting (cuts : List CutRecord) (i : Nat) (c : CutRecord)
    (hc : cuts[i]? = some c) :
    ∃ e, (buildProject cuts).entries[i]? = some e ∧
      e.inAttr = fmt3 c.start ∧ e.outAttr = fmt3 (c.start + c.length) := by
  refine ⟨mkEntry (buildRegistry cuts) c, ?_, rfl, rfl⟩
  show (cuts.map (mkEntry (buildRegistry cuts)))[i]? = some (mkEntry (buildRegistry cuts) c)
  rw [List.getElem?_map, hc]
  rfl

/-- Witness for C2 on the specification's example, start 1.5 and length 2.25. -/
theorem c2_entry_in_out_formatting_witness :
    (∃ e, (buildProject [{ path := "x", start := 3/2, length := 9/4 }]).entries[0]? = some e ∧
      e.inAttr = fmt3 (3/2) ∧ e.outAttr = fmt3 (3/2 + 9/4)) ∧
    fmt3 ((3 : ℚ)/2) = "1.500" ∧ fmt3 ((3 : ℚ)/2 + 9/4) = "3.750" :=
  ⟨c2_entry_in_out_formatting [{ path := "x", start := 3/2, length := 9/4 }] 0
     { path := "x", start := 3/2, length := 9/4 } (by decide), by decide, by decide⟩

/-- C7: a missing input file or an input yielding zero valid cut records is
fatal: the run ends in one of the two error outcomes and nothing is ever
written to the output path. -/
theorem c7_fatal_runs_write_nothing (edlFile : Option (List String))
    (h : edlFile = none ∨ ∃ ls, edlFile = some ls ∧ ∀ p ∈ ls, (parse_edl_line p).1 = none) :
    (create_kdenlive_project edlFile = RunResult.errNoFile ∨
     create_kdenlive_project edlFile = RunResult.errNoCuts) ∧
    ∀ out, create_kdenlive_project edlFile ≠ RunResult.written out := by
  have hres : create_kdenlive_project edlFile = RunResult.errNoFile ∨
      create_kdenlive_project edlFile = RunResult.errNoCuts := by
    rcases h with rfl | ⟨ls, rfl, hall⟩
    · exact Or.inl rfl
    · have hcuts : ls.filterMap (fun l => (parse_edl_line l).1) = [] :=
        List.filterMap_eq_nil_iff.mpr hall
      right
      show (if (ls.filterMap (fun l => (parse_edl_line l).1)).isEmpty then RunResult.errNoCuts
        else RunResult.written (serializeProject
          (buildProject (ls.filterMap (fun l => (parse_edl_line l).1))))) = RunResult.errNoCuts
      rw [hcuts]
      rfl
  refine ⟨hres, ?_⟩
  intro out hout
  rcases hres with he | he <;> rw [he] at hout <;> exact RunResult.noConfusion hout

/-- Witness for C7: a missing file, and a file of one comment line plus one
short malformed line. -/
theorem c7_fatal_runs_write_nothing_witness :
    ((create_kdenlive_project none = RunResult.errNoFile ∨
      create_kdenlive_project none = RunResult.errNoCuts) ∧
     ∀ out, create_kdenlive_project none ≠ RunResult.written out) ∧
    ((create_kdenlive_project (some ["# comment", "bad line"]) = RunResult.errNoFile ∨
      create_kdenlive_project (some ["# comment", "bad line"]) = RunResult.errNoCuts) ∧
     ∀ out, create_kdenlive_project (some ["# comment", "bad line"]) ≠ RunResult.written out) :=
  ⟨c7_fatal_runs_write_nothing none (Or.inl rfl),
   c7_fatal_runs_write_nothing (some ["# comment", "bad line"])
     (Or.inr ⟨["# comment", "bad line"], rfl, by decide⟩)⟩

/-- C8: the builder is a pure function of the ordered cut sequence: equal
inputs serialize to identical output strings, and the producer descriptors
are emitted in registry insertion order (first appearance of each path) on
every run. -/
theorem c8_builder_deterministic (cuts1 cuts2 : List CutRecord) (h : cuts1 = cuts2) :
    serializeProject (buildProject cuts1) = serializeProject (buildProject cuts2) ∧
    (buildProject cuts1).producers.map Producer.resource =
      firstAppearances (cuts1.map CutRecord.path) := by
  subst h
  refine ⟨rfl, ?_⟩
  show ((buildRegistry cuts1).map mkProducer).map Producer.resource =
    firstAppearances (cuts1.map CutRecord.path)
  rw [List.map_map]
  show (buildRegistry cuts1).map Prod.fst = firstAppearances (cuts1.map CutRecord.path)
  rw [buildRegistry, regAux_keys]
  rfl

/-- Witness for C8. -/
theorem c8_builder_deterministic_witness :
    serializeProject (buildProject [{ path := "a", start := 0, length := 1 }]) =
      serializeProject (buildProject [{ path := "a", start := 0, length := 1 }]) ∧
    (buildProject [{ path := "a", start := 0, length := 1 }]).producers.map Producer.resource =
      firstAppearances ([{ path := "a", start := 0, length := 1 }].map CutRecord.path) :=
  c8_builder_deterministic [{ path := "a", start := 0, length := 1 }]
    [{ path := "a", start := 0, length := 1 }] rfl
